import Mathlib

/-!
Shallow embedding of `src/app.py` (MediRemind SA), a WhatsApp medication
reminder service.  Pure helpers model the Python string operations used by
the source; the database is a record of lists mirroring the three
SQLAlchemy models; request handlers become explicit state-passing
functions returning the new database together with the observable reply.
Surrogate integer ids and `created_at` timestamps are omitted: no claim
refers to them.  A Python exception escaping a handler is modelled as a
`none` reply (the enclosing caller sees it as a raised error).
-/

namespace MediRemind

/-! ### Python string primitives -/

/-- Does the pattern (first argument) occur at the head of the second list? -/
def startsWithL : List Char → List Char → Bool
  | [], _ => true
  | _ :: _, [] => false
  | p :: ps, c :: cs => p == c && startsWithL ps cs

/-- Fuel-indexed core of Python `str.replace`: replaces every non-overlapping
occurrence of `pat` left to right.  Each step consumes at least one character,
so fuel equal to the length of the string suffices. -/
def pyReplaceFuel (pat rep : List Char) : Nat → List Char → List Char
  | 0, s => s
  | _, [] => []
  | fuel + 1, c :: cs =>
    if startsWithL pat (c :: cs) && !pat.isEmpty then
      rep ++ pyReplaceFuel pat rep fuel (cs.drop (pat.length - 1))
    else
      c :: pyReplaceFuel pat rep fuel cs

/-- Python `s.replace(pat, rep)` for a non-empty pattern (the source only
calls it with the literal pattern `whatsapp:`). -/
def pyReplace (s pat rep : String) : String :=
  ⟨pyReplaceFuel pat.data rep.data s.data.length s.data⟩

/-- Python `str.strip()`: drop leading and trailing whitespace. -/
def pyStrip (s : String) : String :=
  ⟨((s.data.dropWhile Char.isWhitespace).reverse.dropWhile Char.isWhitespace).reverse⟩

/-- Split a character list at every occurrence of `sep`; the accumulator holds
the current (reversed) field.  Mirrors Python `str.split(sep)` for a
one-character separator: splitting the empty string yields `[""]`. -/
def pySplitAux (sep : Char) (cur : List Char) : List Char → List (List Char)
  | [] => [cur.reverse]
  | c :: cs => if c == sep then cur.reverse :: pySplitAux sep [] cs else pySplitAux sep (c :: cur) cs

/-- Python `s.split(sep)` for a one-character separator. -/
def pySplitChar (sep : Char) (s : String) : List String :=
  (pySplitAux sep [] s.data).map fun cs => ⟨cs⟩

/-- Fuel-indexed single pass of Python `str.format` over the two placeholder
fields used by the source templates, substituting `med` for the medication
field and `dos` for the dosage field.  Substituted text is not re-scanned,
matching Python. -/
def pyFormatFuel (med dos : List Char) : Nat → List Char → List Char
  | 0, s => s
  | _, [] => []
  | fuel + 1, c :: cs =>
    if startsWithL "{medication}".data (c :: cs) then
      med ++ pyFormatFuel med dos fuel (cs.drop ("{medication}".data.length - 1))
    else if startsWithL "{dosage}".data (c :: cs) then
      dos ++ pyFormatFuel med dos fuel (cs.drop ("{dosage}".data.length - 1))
    else
      c :: pyFormatFuel med dos fuel cs

/-- `template.format(medication=med, dosage=dos)` as called by `reminder_worker`
(extra keyword arguments are ignored by templates that lack the field). -/
def pyFormatMedDos (template med dos : String) : String :=
  ⟨pyFormatFuel med.data dos.data template.data.length template.data⟩

/-- `template.format(medication=med)` as called by `add_patient`; the
confirmation templates only contain the medication field. -/
def pyFormatMed (template med : String) : String :=
  ⟨pyFormatFuel med.data "".data template.data.length template.data⟩

/-! ### The localized message table and the language map -/

/-- The English block of the `MESSAGES` dictionary of `src/app.py`: all
eight keys. -/
def MESSAGES_english (key : String) : Option String :=
  match key with
  | "welcome" => some "🏥 Welcome to MediRemind SA! Choose language: 1. English 2. isiZulu"
  | "medication_ask" => some "💊 What medication are you taking?"
  | "dosage_ask" => some "📏 What is your dosage?"
  | "schedule_ask" => some "⏰ What times should we remind you?"
  | "confirmation" => some "✅ Setup Complete! Medication: {medication}"
  | "reminder" => some "💊 Time for your {medication} ({dosage})"
  | "taken_confirmation" => some "✅ Thank you! Dose recorded."
  | "help" => some "🆘 Help: Reply TAKEN, CHANGE, LANGUAGE, STOP"
  | _ => none

/-- The isiZulu block of the `MESSAGES` dictionary of `src/app.py`: only
five of the eight keys are defined. -/
def MESSAGES_zulu (key : String) : Option String :=
  match key with
  | "welcome" => some "🏥 Sawubona! Khetha ulimi: 1. isiZulu 2. English"
  | "medication_ask" => some "💊 Uthatha umuthi onjani?"
  | "confirmation" => some "✅ Kuhle! Umuthi: {medication}"
  | "reminder" => some "💊 Isikhathi sokuthatha {medication}"
  | "taken_confirmation" => some "✅ Ngiyabonga! Isilinganiso sirekhodiwe."
  | _ => none

/-- The nested `MESSAGES` dictionary, as a partial map: a lookup
`MESSAGES[lang][key]` that would raise `KeyError` — on the outer dictionary
for an unknown language, or inside a block for a missing key — is `none`. -/
def MESSAGES (lang key : String) : Option String :=
  if lang = "english" then MESSAGES_english key
  else if lang = "zulu" then MESSAGES_zulu key
  else none

/-- `LANGUAGE_MAP` of `src/app.py` as a partial map on the message text. -/
def LANGUAGE_MAP (s : String) : Option String :=
  match s with
  | "1" => some "english"
  | "2" => some "zulu"
  | "english" => some "english"
  | "zulu" => some "zulu"
  | _ => none

/-! ### Data model -/

/-- The `Patient` model (`src/app.py` lines 33-41).  `phone` carries a
`unique=True` column constraint; column defaults are the structure
defaults.  Python `None` text fields are modelled as `""`. -/
structure Patient where
  phone : String
  name : String := ""
  language : String := "english"
  clinic_id : String := ""
  conversation_state : String := "language_selection"
  conversation_data : String := ""
  deriving Repr, DecidableEq

/-- The `Medication` model (`src/app.py` lines 43-49); `times` is a JSON
list of "HH:MM" strings and `active` defaults to `True`. -/
structure Medication where
  patient_phone : String
  name : String
  dosage : String
  times : List String
  active : Bool := true
  deriving Repr, DecidableEq

/-- The `Adherence` model (`src/app.py` lines 51-57).  `scheduled_time` and
`responded_at` are minutes since an epoch; `responded_at` is `none` when the
column is NULL. -/
structure Adherence where
  patient_phone : String
  medication : String
  scheduled_time : Nat
  taken : Bool := false
  responded_at : Option Nat := none
  deriving Repr, DecidableEq

/-- The relational store: one list per model, in insertion order. -/
structure DB where
  patients : List Patient
  medications : List Medication
  adherences : List Adherence
  deriving Repr, DecidableEq

/-- `Patient.query.filter_by(phone=...).first()`. -/
def findPatient (db : DB) (phone : String) : Option Patient :=
  db.patients.find? fun p => p.phone == phone

/-! ### Conversation handling (`src/app.py` lines 1068-1079) -/

/-- `handle_conversation` exactly as written in `src/app.py`: an unknown
sender is enrolled in state `language_selection` (column defaults give
language `english`) and receives the English welcome; any existing patient
gets `MESSAGES[patient.language]['help']`, which is `none` (a `KeyError`)
when the language block lacks the `help` key. -/
def handle_conversation (db : DB) (patient_phone message : String) : DB × Option String :=
  match findPatient db patient_phone with
  | none =>
    let patient : Patient := { phone := patient_phone, conversation_state := "language_selection" }
    ({ db with patients := db.patients ++ [patient] }, MESSAGES "english" "welcome")
  | some patient => (db, MESSAGES patient.language "help")

/-- Mutate the first patient row matching `phone` in place, as the ORM does
when a fetched row is assigned to and the session committed. -/
def updatePatients (phone : String) (f : Patient → Patient) : List Patient → List Patient
  | [] => []
  | q :: rest => if q.phone == phone then f q :: rest else q :: updatePatients phone f rest

/-- Modelled from the spec: the step of the five-state conversation machine
taken for an already-enrolled patient (see `handle_conversation_full`). -/
def handle_existing (db : DB) (patient : Patient) (patient_phone message : String) (now : Nat) :
    DB × Option String :=
  match patient.conversation_state with
    | "language_selection" =>
      match LANGUAGE_MAP message with
      | some lang =>
        let ps := updatePatients patient_phone
          (fun q => { q with language := lang, conversation_state := "medication_name" })
          db.patients
        ({ db with patients := ps }, MESSAGES lang "medication_ask")
      | none => (db, MESSAGES patient.language "welcome")
    | "medication_name" =>
      let ps := updatePatients patient_phone
        (fun q => { q with conversation_state := "dosage", conversation_data := message })
        db.patients
      ({ db with patients := ps }, MESSAGES patient.language "dosage_ask")
    | "dosage" =>
      let ps := updatePatients patient_phone
        (fun q => { q with conversation_state := "schedule",
                           conversation_data := q.conversation_data ++ "|" ++ message })
        db.patients
      ({ db with patients := ps }, MESSAGES patient.language "schedule_ask")
    | "schedule" =>
      let parts := pySplitChar '|' patient.conversation_data
      let medName := parts.headD ""
      let med : Medication :=
        { patient_phone := patient_phone, name := medName,
          dosage := (parts.drop 1).headD "", times := pySplitChar ',' message }
      let ps := updatePatients patient_phone
        (fun q => { q with conversation_state := "active" }) db.patients
      ({ db with patients := ps, medications := db.medications ++ [med] },
       (MESSAGES patient.language "confirmation").map fun t => pyFormatMed t medName)
    | _ =>
      if message == "TAKEN" then
        let medName := ((db.medications.find? fun m => m.patient_phone == patient_phone).map
          fun m => m.name).getD ""
        let rec1 : Adherence :=
          { patient_phone := patient_phone, medication := medName,
            scheduled_time := now, taken := true, responded_at := some now }
        ({ db with adherences := db.adherences ++ [rec1] },
         MESSAGES patient.language "taken_confirmation")
      else
        (db, MESSAGES patient.language "help")

/-- Modelled from the spec: the conversation logic for existing patients is
elided from `src/app.py` (the comment `... rest of conversation logic
(simplified for example)` before the final `return`).  The spec describes a
five-state linear machine — language selection → medication name → dosage →
schedule → active — driving lookups into the source's `MESSAGES` table via
the source's `LANGUAGE_MAP`, with a free-text scratch buffer
(`conversation_data`) for in-progress answers, an active medication created
when onboarding completes, and a `TAKEN` reply in the active state logging
an adherence record.  The unknown-sender branch is the one from the source.
`now` is the current time in minutes since the epoch. -/
def handle_conversation_full (db : DB) (patient_phone message : String) (now : Nat) :
    DB × Option String :=
  match findPatient db patient_phone with
  | none =>
    let patient : Patient := { phone := patient_phone, conversation_state := "language_selection" }
    ({ db with patients := db.patients ++ [patient] }, MESSAGES "english" "welcome")
  | some patient => handle_existing db patient patient_phone message now

/-! ### Staff routes (`src/app.py` lines 700-742) -/

/-- The POST branch of `/add_patient` (`src/app.py` lines 702-724).  The
`unique=True` constraint on `Patient.phone` makes `db.session.commit()`
raise `IntegrityError` on a duplicate phone, rolling the transaction back
(modelled: unchanged store, `none` response).  The commit happens before
the `MESSAGES[patient.language]['confirmation']` lookup, so an unsupported
language leaves both rows persisted while the request errors (`none`).
`send_whatsapp` never raises (see `send_whatsapp` below), so a successful
lookup always reaches `return "Patient added successfully!"`. -/
def add_patient (db : DB) (phone name language medication dosage times : String) :
    DB × Option String :=
  if (findPatient db phone).isSome then
    (db, none)
  else
    let patient : Patient :=
      { phone := phone, name := name, language := language,
        clinic_id := "demo", conversation_state := "active" }
    let med : Medication :=
      { patient_phone := phone, name := medication, dosage := dosage,
        times := pySplitChar ',' times }
    let db2 : DB := { db with patients := db.patients ++ [patient],
                              medications := db.medications ++ [med] }
    match MESSAGES language "confirmation" with
    | none => (db2, none)
    | some _ => (db2, some "Patient added successfully!")

/-- `request.form.get(key)`: first value bound to the key, if any. -/
def formGet (form : List (String × String)) (k : String) : Option String :=
  (form.find? fun kv => kv.1 == k).map fun kv => kv.2

/-- The success body of the webhook route. -/
def responseOk : String := "<Response></Response>"

/-- The generic error body returned when webhook processing raises. -/
def responseError : String := "<Response><Message>System error. Please try again.</Message></Response>"

/-- `whatsapp_webhook` (`src/app.py` lines 729-742): read `Body` (stripped,
default `""`) and `From` (every occurrence of `whatsapp:` removed by
`str.replace`), run `handle_conversation`, send the reply to the sender and
answer `<Response></Response>`; any exception — here only the missing-key
error surfaced as a `none` reply — is caught and answered with the generic
error body.  The middle component lists the outbound sends `(to, body)`. -/
def whatsapp_webhook (db : DB) (form : List (String × String)) :
    DB × List (String × String) × String :=
  let incoming_msg := pyStrip ((formGet form "Body").getD "")
  let from_number := pyReplace ((formGet form "From").getD "") "whatsapp:" ""
  match handle_conversation db from_number incoming_msg with
  | (db2, some reply) => (db2, [(from_number, reply)], responseOk)
  | (_, none) => (db, [], responseError)

/-! ### Outbound send (`src/app.py` lines 82-94) -/

/-- Outcome of a Python call: a normal return or a raised exception. -/
inductive PyResult (α : Type) where
  | ok : α → PyResult α
  | exc : String → PyResult α
  deriving Repr, DecidableEq

/-- `send_whatsapp`, parametrised by the outcome of the underlying
`twilio_client.messages.create` call: the `try` block returns `True` on
success and the bare `except` turns any raise into `return False`, so the
function itself never raises. -/
def send_whatsapp (create : PyResult Unit) : PyResult Bool :=
  match create with
  | .ok _ => .ok true
  | .exc _ => .ok false

/-! ### Reminder worker (`src/app.py` lines 1083-1103) -/

/-- One pass of the `for med in due_meds` loop over an already
active-filtered list.  A medication fires when its `times` list is truthy
(non-empty) and contains the current "HH:MM" string and its patient row
exists; the reminder template lookup raising `KeyError` aborts the rest of
the scan (the exception propagates to the worker's `except`), flagged by a
`false` second component. -/
def scanMeds (db : DB) (current_time : String) : List Medication → List (String × String) × Bool
  | [] => ([], true)
  | med :: rest =>
    if !med.times.isEmpty && med.times.contains current_time then
      match findPatient db med.patient_phone with
      | some patient =>
        match MESSAGES patient.language "reminder" with
        | some template =>
          let out := scanMeds db current_time rest
          ((patient.phone, pyFormatMedDos template med.name med.dosage) :: out.1, out.2)
        | none => ([], false)
      | none => scanMeds db current_time rest
    else scanMeds db current_time rest

/-- One iteration of `reminder_worker`'s `while True` body:
`Medication.query.filter_by(active=True).all()` then the scan loop.  The
store is unchanged (the source's adherence logging is an elided comment). -/
def reminder_scan (db : DB) (current_time : String) : List (String × String) × Bool :=
  scanMeds db current_time (db.medications.filter fun m => m.active)

/-- The worker run over a stream of observed clock strings, one per
iteration: both the normal path and the `except` path sleep and loop, so
every iteration executes and the sends of all iterations accumulate.  The
third component counts completed iterations. -/
def reminder_worker_run (db : DB) : List String → List (String × String) × Nat
  | [] => ([], 0)
  | t :: ts =>
    let here := reminder_scan db t
    let rest := reminder_worker_run db ts
    (here.1 ++ rest.1, rest.2 + 1)

/-! ### Dashboard statistics (`src/app.py` lines 746-771) -/

/-- Calendar date (day index) of a minutes-since-epoch timestamp, the
`db.func.date` projection. -/
def dateOf (t : Nat) : Nat := t / 1440

/-- The dictionary returned by `get_dashboard_stats`, minus the `today`
echo. -/
structure DashboardStats where
  patients : Nat
  active_meds : Nat
  reminders_today : Nat
  taken_today : Nat
  adherence_rate : ℚ
  deriving Repr

/-- `get_dashboard_stats` with `today` the current day index: counts, and
`adherence_rate = taken_today / reminders_today * 100` guarded by
`if reminders_today > 0 else 0`. -/
def get_dashboard_stats (db : DB) (today : Nat) : DashboardStats :=
  let reminders_today := (db.adherences.filter fun a => dateOf a.scheduled_time == today).length
  let taken_today :=
    (db.adherences.filter fun a => dateOf a.scheduled_time == today && a.taken).length
  { patients := db.patients.length
    active_meds := (db.medications.filter fun m => m.active).length
    reminders_today := reminders_today
    taken_today := taken_today
    adherence_rate :=
      if reminders_today > 0 then (taken_today : ℚ) / (reminders_today : ℚ) * 100 else 0 }

/-! ### Invariants and reachability -/

/-- No two patient rows share a phone number. -/
def phonesUnique (db : DB) : Prop :=
  (db.patients.map fun p => p.phone).Nodup

instance (db : DB) : Decidable (phonesUnique db) := by
  unfold phonesUnique; infer_instance

/-- Stores reachable from the empty database through the patient-creating
and patient-updating operations of the application. -/
inductive Reachable : DB → Prop where
  | init : Reachable ⟨[], [], []⟩
  | conv (db : DB) (phone msg : String) :
      Reachable db → Reachable (handle_conversation db phone msg).1
  | conv_full (db : DB) (phone msg : String) (now : Nat) :
      Reachable db → Reachable (handle_conversation_full db phone msg now).1
  | add (db : DB) (phone name lang med dos times : String) :
      Reachable db → Reachable (add_patient db phone name lang med dos times).1

/-! ### Auxiliary observations used to state the claims -/

/-- Position of a conversation state in the five-state linear sequence. -/
def stateIndex : String → Option Nat
  | "language_selection" => some 0
  | "medication_name" => some 1
  | "dosage" => some 2
  | "schedule" => some 3
  | "active" => some 4
  | _ => none

/-- The reminder send a single medication should produce under a scan at
`t`, per the firing condition: active, non-empty `times` containing `t`,
and an existing patient row (whose language then selects the template). -/
def medSend (db : DB) (t : String) (m : Medication) : Option (String × String) :=
  if m.active = true ∧ m.times ≠ [] ∧ t ∈ m.times then
    (findPatient db m.patient_phone).bind fun p =>
      (MESSAGES p.language "reminder").map fun template =>
        (p.phone, pyFormatMedDos template m.name m.dosage)
  else none

/-- The `From` transformation as the claim words it: remove the leading
`whatsapp:` tag when present, and nothing else.  Compared against the
source's `str.replace`, which removes every occurrence. -/
def from_number_spec (s : String) : String :=
  if startsWithL "whatsapp:".data s.data then ⟨s.data.drop "whatsapp:".data.length⟩ else s

/-! ## Helper lemmas -/

theorem MESSAGES_help_isSome (lang : String) :
    (MESSAGES lang "help").isSome = true ↔ lang = "english" := by
  unfold MESSAGES
  by_cases h1 : lang = "english"
  · simp [h1, MESSAGES_english]
  · by_cases h2 : lang = "zulu" <;> simp [h1, h2, MESSAGES_zulu]

theorem length_filter_and_le {α : Type} (p q : α → Bool) (l : List α) :
    (l.filter fun a => p a && q a).length ≤ (l.filter p).length := by
  induction l with
  | nil => simp
  | cons a t ih =>
    by_cases hp : p a <;> by_cases hq : q a <;>
      simp [List.filter_cons, hp, hq] <;> omega

/-! ## Theorems for the claims -/

/-- C10: for a phone with no existing patient row, `handle_conversation`
creates a new patient in state `language_selection` with default language
`english`, and returns the English welcome message regardless of the text
of the incoming message. -/
theorem C10_new_patient_welcome (db : DB) (phone msg : String)
    (h : findPatient db phone = none) :
    handle_conversation db phone msg =
      ({ db with patients := db.patients ++
          [{ phone := phone, name := "", language := "english", clinic_id := "",
             conversation_state := "language_selection", conversation_data := "" }] },
       some "🏥 Welcome to MediRemind SA! Choose language: 1. English 2. isiZulu") := by
  unfold handle_conversation
  rw [h]
  rfl

/-- C10 witness: a concrete unknown sender is enrolled and welcomed. -/
theorem C10_witness :
    handle_conversation ⟨[], [], []⟩ "+27821234567" "hello there" =
      (⟨[{ phone := "+27821234567" }], [], []⟩,
       some "🏥 Welcome to MediRemind SA! Choose language: 1. English 2. isiZulu") :=
  C10_new_patient_welcome ⟨[], [], []⟩ "+27821234567" "hello there" (by decide)

/-- C4 counterexample: the isiZulu block of `MESSAGES` has no `help` key,
so for an existing patient with language `zulu` the reply lookup
`MESSAGES[patient.language]['help']` raises a missing-key error (modelled
as a `none` reply); the claimed totality on both languages fails. -/
theorem C4_counterexample_zulu_help :
    MESSAGES "zulu" "help" = none ∧
    (handle_conversation
        ⟨[{ phone := "z", language := "zulu", conversation_state := "active" }], [], []⟩
        "z" "hello").2 = none := by
  constructor <;> decide

/-- C4 (amended): `MESSAGES[patient.language]['help']` is defined for
`english` but not for `zulu`; for every existing patient the reply of
`handle_conversation` is defined exactly when the patient's language has a
`help` entry, which holds exactly for language `english`. -/
theorem C4_help_total_only_english (db : DB) (phone msg : String) (p : Patient)
    (h : findPatient db phone = some p) :
    ((handle_conversation db phone msg).2.isSome = true ↔
      (MESSAGES p.language "help").isSome = true) ∧
    ((MESSAGES p.language "help").isSome = true ↔ p.language = "english") := by
  constructor
  · unfold handle_conversation
    rw [h]
  · exact MESSAGES_help_isSome p.language

/-- C4 witness: instantiating the amended claim at a concrete English
patient. -/
theorem C4_witness :
    ((handle_conversation ⟨[{ phone := "e" }], [], []⟩ "e" "hi").2.isSome = true ↔
      (MESSAGES "english" "help").isSome = true) ∧
    ((MESSAGES "english" "help").isSome = true ↔ "english" = "english") :=
  C4_help_total_only_english ⟨[{ phone := "e" }], [], []⟩ "e" "hi" { phone := "e" } (by decide)

/-- C9: the dashboard adherence rate never divides by zero — it is
`taken_today / reminders_today * 100` exactly when `reminders_today > 0`
and `0` otherwise — and since the taken-today records are a subset of the
reminders-today records the rate always lies between 0 and 100. -/
theorem C9_adherence_rate_bounds (db : DB) (today : Nat) :
    (get_dashboard_stats db today).taken_today ≤ (get_dashboard_stats db today).reminders_today ∧
    (get_dashboard_stats db today).adherence_rate =
      (if (get_dashboard_stats db today).reminders_today > 0 then
        ((get_dashboard_stats db today).taken_today : ℚ) /
          ((get_dashboard_stats db today).reminders_today : ℚ) * 100
       else 0) ∧
    0 ≤ (get_dashboard_stats db today).adherence_rate ∧
    (get_dashboard_stats db today).adherence_rate ≤ 100 := by
  have hle : ((db.adherences.filter fun a => dateOf a.scheduled_time == today && a.taken).length)
      ≤ ((db.adherences.filter fun a => dateOf a.scheduled_time == today).length) :=
    length_filter_and_le (fun a : Adherence => dateOf a.scheduled_time == today)
      (fun a : Adherence => a.taken) db.adherences
  simp only [get_dashboard_stats]
  set t : Nat := (db.adherences.filter fun a => dateOf a.scheduled_time == today && a.taken).length
  set r : Nat := (db.adherences.filter fun a => dateOf a.scheduled_time == today).length
  refine ⟨hle, trivial, ?_, ?_⟩
  · by_cases hr : r > 0
    · rw [if_pos hr]
      positivity
    · rw [if_neg hr]
  · by_cases hr : r > 0
    · rw [if_pos hr]
      have hrq : (0 : ℚ) < (r : ℚ) := by exact_mod_cast hr
      have hq : (t : ℚ) ≤ (r : ℚ) := by exact_mod_cast hle
      have h1 : (t : ℚ) / (r : ℚ) ≤ 1 := (div_le_one hrq).mpr hq
      calc (t : ℚ) / (r : ℚ) * 100 ≤ 1 * 100 :=
            mul_le_mul_of_nonneg_right h1 (by norm_num)
        _ = 100 := by norm_num
    · rw [if_neg hr]
      norm_num

/-- C5: the error-handling pattern.  `send_whatsapp` never propagates an
exception: it returns `True` exactly when the underlying create call
succeeds and `False` exactly when that call raises.  `whatsapp_webhook`
returns the generic error response exactly when its processing raises
(modelled: the conversation handler's reply lookup fails).  The reminder
worker catches any exception in its body and continues looping: every
iteration of the run executes, whatever each scan does. -/
theorem C5_error_handling :
    (∀ create : PyResult Unit,
      (∀ e, send_whatsapp create ≠ PyResult.exc e) ∧
      (send_whatsapp create = PyResult.ok true ↔ ∃ u, create = PyResult.ok u) ∧
      (send_whatsapp create = PyResult.ok false ↔ ∃ e, create = PyResult.exc e)) ∧
    (∀ (db : DB) (form : List (String × String)),
      ((whatsapp_webhook db form).2.2 = responseError ↔
        (handle_conversation db (pyReplace ((formGet form "From").getD "") "whatsapp:" "")
          (pyStrip ((formGet form "Body").getD ""))).2 = none) ∧
      ((whatsapp_webhook db form).2.2 = responseOk ∨
        (whatsapp_webhook db form).2.2 = responseError)) ∧
    (∀ (db : DB) (ts : List String), (reminder_worker_run db ts).2 = ts.length) := by
  refine ⟨?_, ?_, ?_⟩
  · intro create
    cases create with
    | ok u =>
      refine ⟨fun e h => by simp [send_whatsapp] at h, ⟨fun _ => ⟨u, rfl⟩, fun _ => rfl⟩, ?_⟩
      constructor
      · intro h
        simp [send_whatsapp] at h
      · rintro ⟨e, he⟩
        cases he
    | exc e =>
      refine ⟨fun e2 h => by simp [send_whatsapp] at h, ?_, ⟨fun _ => ⟨e, rfl⟩, fun _ => rfl⟩⟩
      constructor
      · intro h
        simp [send_whatsapp] at h
      · rintro ⟨u, hu⟩
        cases hu
  · intro db form
    rcases hh : handle_conversation db
        (pyReplace ((formGet form "From").getD "") "whatsapp:" "")
        (pyStrip ((formGet form "Body").getD "")) with ⟨db2, r⟩
    cases r with
    | none =>
      constructor
      · simp [whatsapp_webhook, hh]
      · right
        simp [whatsapp_webhook, hh]
    | some reply =>
      constructor
      · simp [whatsapp_webhook, hh, responseOk, responseError]
      · left
        simp [whatsapp_webhook, hh]
  · intro db ts
    induction ts with
    | nil => rfl
    | cons t rest ih => simp [reminder_worker_run, ih]

/-- C5 witness: a raising create call yields `False`, a concrete webhook
request succeeds with the empty response, and a two-iteration worker run
executes both iterations. -/
theorem C5_witness :
    send_whatsapp (PyResult.exc "network down") = PyResult.ok false ∧
    (whatsapp_webhook ⟨[], [], []⟩ [("Body", "hi"), ("From", "whatsapp:+1")]).2.2 = responseOk ∧
    (reminder_worker_run ⟨[], [], []⟩ ["08:00", "08:01"]).2 = 2 := by
  refine ⟨?_, ?_, ?_⟩
  · exact (C5_error_handling.1 (PyResult.exc "network down")).2.2.mpr ⟨"network down", rfl⟩
  · rcases (C5_error_handling.2.1 ⟨[], [], []⟩ [("Body", "hi"), ("From", "whatsapp:+1")]).2
      with hok | herr
    · exact hok
    · exact absurd
        ((C5_error_handling.2.1 ⟨[], [], []⟩ [("Body", "hi"), ("From", "whatsapp:+1")]).1.mp herr)
        (by decide)
  · exact C5_error_handling.2.2 ⟨[], [], []⟩ ["08:00", "08:01"]

/-- C6: a POST to `/add_patient` whose phone is not already enrolled and
whose language is one of the form's two options creates exactly one patient
row (state `active`) and exactly one medication row whose `times` list is
the comma split of the `times` field and whose `active` flag is `True`,
then returns the success string. -/
theorem C6_add_patient_creates_rows (db : DB)
    (phone name language medication dosage times : String)
    (hfresh : findPatient db phone = none)
    (hlang : language = "english" ∨ language = "zulu") :
    add_patient db phone name language medication dosage times =
      ({ db with
          patients := db.patients ++
            [{ phone := phone, name := name, language := language, clinic_id := "demo",
               conversation_state := "active", conversation_data := "" }],
          medications := db.medications ++
            [{ patient_phone := phone, name := medication, dosage := dosage,
               times := pySplitChar ',' times, active := true }] },
       some "Patient added successfully!") := by
  unfold add_patient
  rw [hfresh]
  rcases hlang with h | h <;> subst h <;> rfl

/-- C6 witness: a concrete staff submission creates the two rows and
returns the success string. -/
theorem C6_witness :
    add_patient ⟨[], [], []⟩ "+2782" "Ann" "english" "Aspirin" "10mg" "08:00,20:00" =
      (⟨[{ phone := "+2782", name := "Ann", language := "english", clinic_id := "demo",
           conversation_state := "active" }],
        [{ patient_phone := "+2782", name := "Aspirin", dosage := "10mg",
           times := ["08:00", "20:00"] }], []⟩,
       some "Patient added successfully!") := by
  exact C6_add_patient_creates_rows ⟨[], [], []⟩ "+2782" "Ann" "english" "Aspirin" "10mg"
    "08:00,20:00" (by decide) (Or.inl rfl)

theorem formGet_append_other (form : List (String × String)) (k v key : String)
    (hk : k ≠ key) : formGet (form ++ [(k, v)]) key = formGet form key := by
  unfold formGet
  rw [List.find?_append]
  cases hf : form.find? fun kv => kv.1 == key with
  | some x => simp
  | none => simp [hk]

/-- C8 counterexample: the source transforms `From` with
`str.replace('whatsapp:', '')`, which removes every occurrence, not only a
leading prefix.  On the concrete value `whatsapp:whatsapp:+271` the webhook
addresses (and enrolls) `+271`, while removing only the leading tag would
leave `whatsapp:+271`; the claim's description of the transformation fails
on this input. -/
theorem C8_counterexample_replace_all :
    (whatsapp_webhook ⟨[], [], []⟩ [("Body", "hi"), ("From", "whatsapp:whatsapp:+271")]).2.1 =
      [("+271", "🏥 Welcome to MediRemind SA! Choose language: 1. English 2. isiZulu")] ∧
    from_number_spec "whatsapp:whatsapp:+271" = "whatsapp:+271" ∧
    ("+271" : String) ≠ "whatsapp:+271" := by
  refine ⟨by decide, by decide, by decide⟩

/-- C8 (amended): the webhook reads exactly the form fields `Body`
(whitespace-stripped, defaulting to the empty string when absent) and
`From` with every occurrence of the substring `whatsapp:` removed (this
equals removing the prefix whenever `whatsapp:` occurs only as the leading
tag), passes them to `handle_conversation`, sends the resulting reply to
the sender, and returns `<Response></Response>` on success: appending any
other form field changes nothing, the success response occurs exactly when
the handler replies, and on success the reply is sent to the transformed
sender number. -/
theorem C8_webhook_fields (db : DB) (form : List (String × String)) :
    (∀ k v, k ≠ "Body" → k ≠ "From" →
      whatsapp_webhook db (form ++ [(k, v)]) = whatsapp_webhook db form) ∧
    ((whatsapp_webhook db form).2.2 = responseOk ↔
      ((handle_conversation db (pyReplace ((formGet form "From").getD "") "whatsapp:" "")
        (pyStrip ((formGet form "Body").getD ""))).2).isSome = true) ∧
    (∀ r, (handle_conversation db (pyReplace ((formGet form "From").getD "") "whatsapp:" "")
        (pyStrip ((formGet form "Body").getD ""))).2 = some r →
      whatsapp_webhook db form =
        ((handle_conversation db (pyReplace ((formGet form "From").getD "") "whatsapp:" "")
          (pyStrip ((formGet form "Body").getD ""))).1,
         [(pyReplace ((formGet form "From").getD "") "whatsapp:" "", r)], responseOk)) := by
  refine ⟨?_, ?_, ?_⟩
  · intro k v hB hF
    unfold whatsapp_webhook
    rw [formGet_append_other form k v "Body" hB, formGet_append_other form k v "From" hF]
  · rcases hh : handle_conversation db
        (pyReplace ((formGet form "From").getD "") "whatsapp:" "")
        (pyStrip ((formGet form "Body").getD "")) with ⟨db2, r⟩
    cases r with
    | none =>
      simp only [whatsapp_webhook, hh]
      constructor
      · intro h
        exact absurd h (by decide)
      · intro h
        cases h
    | some reply =>
      simp [whatsapp_webhook, hh]
  · intro r hr
    rcases hh : handle_conversation db
        (pyReplace ((formGet form "From").getD "") "whatsapp:" "")
        (pyStrip ((formGet form "Body").getD "")) with ⟨db2, r2⟩
    rw [hh] at hr
    simp only at hr
    subst hr
    simp only [whatsapp_webhook, hh]

/-- C8 witness: a concrete webhook request ignores an extra form field and
answers the empty response. -/
theorem C8_witness :
    whatsapp_webhook ⟨[], [], []⟩
        ([("Body", " hi "), ("From", "whatsapp:+9")] ++ [("X", "1")]) =
      whatsapp_webhook ⟨[], [], []⟩ [("Body", " hi "), ("From", "whatsapp:+9")] ∧
    (whatsapp_webhook ⟨[], [], []⟩ [("Body", " hi "), ("From", "whatsapp:+9")]).2.2 =
      responseOk := by
  constructor
  · exact (C8_webhook_fields ⟨[], [], []⟩ [("Body", " hi "), ("From", "whatsapp:+9")]).1
      "X" "1" (by decide) (by decide)
  · exact (C8_webhook_fields ⟨[], [], []⟩ [("Body", " hi "), ("From", "whatsapp:+9")]).2.1.mpr
      (by decide)

theorem LANGUAGE_MAP_values (s lang : String) (h : LANGUAGE_MAP s = some lang) :
    lang = "english" ∨ lang = "zulu" := by
  unfold LANGUAGE_MAP at h
  split at h <;> simp_all

theorem find?_cons_pos {α : Type} (p : α → Bool) (a : α) (l : List α) (h : p a = true) :
    (a :: l).find? p = some a := by
  simp [List.find?, h]

theorem find?_cons_neg {α : Type} (p : α → Bool) (a : α) (l : List α) (h : p a = false) :
    (a :: l).find? p = l.find? p := by
  simp [List.find?, h]

theorem find?_updatePatients (phone : String) (f : Patient → Patient)
    (hf : ∀ q, (f q).phone = q.phone) (l : List Patient) (p : Patient)
    (h : l.find? (fun q => q.phone == phone) = some p) :
    (updatePatients phone f l).find? (fun q => q.phone == phone) = some (f p) := by
  induction l with
  | nil => simp at h
  | cons a t ih =>
    by_cases ha : (a.phone == phone) = true
    · rw [find?_cons_pos _ a t ha] at h
      injection h with h
      subst h
      unfold updatePatients
      rw [if_pos ha]
      have hfa : ((f a).phone == phone) = true := by rw [hf a]; exact ha
      exact find?_cons_pos _ (f a) t hfa
    · have ha2 : (a.phone == phone) = false := by
        cases hb : (a.phone == phone) with
        | true => exact absurd hb ha
        | false => rfl
      rw [find?_cons_neg _ a t ha2] at h
      unfold updatePatients
      rw [if_neg ha, find?_cons_neg _ a (updatePatients phone f t) ha2]
      exact ih h

theorem stateIndex_lt4_cases (s : String) (i : Nat) (h : stateIndex s = some i)
    (hi : i < 4) :
    (s = "language_selection" ∧ i = 0) ∨ (s = "medication_name" ∧ i = 1) ∨
    (s = "dosage" ∧ i = 2) ∨ (s = "schedule" ∧ i = 3) := by
  unfold stateIndex at h
  split at h <;> simp_all

theorem handle_full_existing (db : DB) (phone msg : String) (now : Nat) (p : Patient)
    (h : findPatient db phone = some p) :
    handle_conversation_full db phone msg now = handle_existing db p phone msg now := by
  unfold handle_conversation_full
  rw [h]

/-- C1: in the modelled five-state conversation machine (see
`handle_conversation_full`), an existing patient in state
`language_selection` who sends a valid language choice is advanced to the
medication-name step with the chosen language recorded, and receives that
language's localized medication prompt (which exists for both choices);
moreover every valid reply in a pre-`active` state advances the state index
by exactly one. -/
theorem C1_language_selection_advances :
    (∀ (db : DB) (phone msg : String) (now : Nat) (p : Patient) (lang : String),
      findPatient db phone = some p →
      p.conversation_state = "language_selection" →
      LANGUAGE_MAP msg = some lang →
      (handle_conversation_full db phone msg now).2 = MESSAGES lang "medication_ask" ∧
      (MESSAGES lang "medication_ask").isSome = true ∧
      findPatient (handle_conversation_full db phone msg now).1 phone =
        some { p with language := lang, conversation_state := "medication_name" }) ∧
    (∀ (db : DB) (phone msg : String) (now : Nat) (p : Patient) (i : Nat),
      findPatient db phone = some p →
      stateIndex p.conversation_state = some i → i < 4 →
      (p.conversation_state = "language_selection" → (LANGUAGE_MAP msg).isSome = true) →
      ∃ p2 : Patient,
        findPatient (handle_conversation_full db phone msg now).1 phone = some p2 ∧
        stateIndex p2.conversation_state = some (i + 1)) := by
  constructor
  · intro db phone msg now p lang hfind hstate hlang
    have hcore : handle_conversation_full db phone msg now =
        (⟨updatePatients phone
            (fun q => { q with language := lang, conversation_state := "medication_name" })
            db.patients, db.medications, db.adherences⟩,
         MESSAGES lang "medication_ask") := by
      rw [handle_full_existing db phone msg now p hfind]
      unfold handle_existing
      rw [hstate, hlang]
      rfl
    refine ⟨by rw [hcore], ?_, ?_⟩
    · rcases LANGUAGE_MAP_values msg lang hlang with h | h <;> rw [h] <;> rfl
    · rw [hcore]
      exact find?_updatePatients phone
        (fun q => { q with language := lang, conversation_state := "medication_name" })
        (fun q => rfl) db.patients p hfind
  · intro db phone msg now p i hfind hidx hlt hvalid
    have hfull := handle_full_existing db phone msg now p hfind
    rcases stateIndex_lt4_cases _ _ hidx hlt with ⟨hs, hi⟩ | ⟨hs, hi⟩ | ⟨hs, hi⟩ | ⟨hs, hi⟩ <;>
      subst hi
    · have hl := hvalid hs
      rcases hex : LANGUAGE_MAP msg with _ | lang
      · rw [hex] at hl
        simp at hl
      · refine ⟨{ p with language := lang, conversation_state := "medication_name" }, ?_, rfl⟩
        have hpat : (handle_conversation_full db phone msg now).1.patients =
            updatePatients phone
              (fun q => { q with language := lang, conversation_state := "medication_name" })
              db.patients := by
          rw [hfull]
          unfold handle_existing
          rw [hs, hex]
          rfl
        show (handle_conversation_full db phone msg now).1.patients.find?
          (fun q => q.phone == phone) = _
        rw [hpat]
        exact find?_updatePatients phone
          (fun q => { q with language := lang, conversation_state := "medication_name" })
          (fun q => rfl) db.patients p hfind
    · refine ⟨{ p with conversation_state := "dosage", conversation_data := msg }, ?_, rfl⟩
      have hpat : (handle_conversation_full db phone msg now).1.patients =
          updatePatients phone
            (fun q => { q with conversation_state := "dosage", conversation_data := msg })
            db.patients := by
        rw [hfull]
        unfold handle_existing
        rw [hs]
        rfl
      show (handle_conversation_full db phone msg now).1.patients.find?
        (fun q => q.phone == phone) = _
      rw [hpat]
      exact find?_updatePatients phone
        (fun q => { q with conversation_state := "dosage", conversation_data := msg })
        (fun q => rfl) db.patients p hfind
    · refine ⟨{ p with conversation_state := "schedule",
                       conversation_data := p.conversation_data ++ "|" ++ msg }, ?_, rfl⟩
      have hpat : (handle_conversation_full db phone msg now).1.patients =
          updatePatients phone
            (fun q => { q with conversation_state := "schedule",
                               conversation_data := q.conversation_data ++ "|" ++ msg })
            db.patients := by
        rw [hfull]
        unfold handle_existing
        rw [hs]
        rfl
      show (handle_conversation_full db phone msg now).1.patients.find?
        (fun q => q.phone == phone) = _
      rw [hpat]
      exact find?_updatePatients phone
        (fun q => { q with conversation_state := "schedule",
                           conversation_data := q.conversation_data ++ "|" ++ msg })
        (fun q => rfl) db.patients p hfind
    · refine ⟨{ p with conversation_state := "active" }, ?_, rfl⟩
      have hpat : (handle_conversation_full db phone msg now).1.patients =
          updatePatients phone (fun q => { q with conversation_state := "active" })
            db.patients := by
        rw [hfull]
        unfold handle_existing
        rw [hs]
        rfl
      show (handle_conversation_full db phone msg now).1.patients.find?
        (fun q => q.phone == phone) = _
      rw [hpat]
      exact find?_updatePatients phone
        (fun q => { q with conversation_state := "active" })
        (fun q => rfl) db.patients p hfind

/-- C1 witness: a concrete patient in language selection replying `2`
advances to the medication-name step in isiZulu, and a concrete patient in
the medication-name step advances to index 2 (dosage). -/
theorem C1_witness :
    ((handle_conversation_full ⟨[{ phone := "p" }], [], []⟩ "p" "2" 5).2 =
        MESSAGES "zulu" "medication_ask" ∧
      (MESSAGES "zulu" "medication_ask").isSome = true ∧
      findPatient (handle_conversation_full ⟨[{ phone := "p" }], [], []⟩ "p" "2" 5).1 "p" =
        some { phone := "p", language := "zulu", conversation_state := "medication_name" }) ∧
    (∃ p2 : Patient,
      findPatient (handle_conversation_full
        ⟨[{ phone := "q", conversation_state := "medication_name" }], [], []⟩
        "q" "Aspirin" 5).1 "q" = some p2 ∧
      stateIndex p2.conversation_state = some 2) := by
  constructor
  · exact C1_language_selection_advances.1 ⟨[{ phone := "p" }], [], []⟩ "p" "2" 5
      { phone := "p" } "zulu" (by decide) rfl rfl
  · exact C1_language_selection_advances.2
      ⟨[{ phone := "q", conversation_state := "medication_name" }], [], []⟩ "q" "Aspirin" 5
      { phone := "q", conversation_state := "medication_name" } 1 (by decide) rfl
      (by decide) (fun h => by simp at h)

/-- C2: in the modelled conversation machine (see
`handle_conversation_full`), an enrolled patient (state `active`) whose
inbound message body is `TAKEN` causes an adherence record with
`taken = True` and `responded_at` set to be appended, and the reply is the
taken-confirmation message in the patient's language, which exists for both
supported languages. -/
theorem C2_taken_logs_adherence (db : DB) (phone : String) (now : Nat) (p : Patient)
    (hfind : findPatient db phone = some p)
    (hstate : p.conversation_state = "active")
    (hlang : p.language = "english" ∨ p.language = "zulu") :
    (∃ rec1 : Adherence,
      (handle_conversation_full db phone "TAKEN" now).1.adherences =
        db.adherences ++ [rec1] ∧
      rec1.taken = true ∧ rec1.responded_at = some now ∧ rec1.patient_phone = phone) ∧
    (handle_conversation_full db phone "TAKEN" now).2 =
      MESSAGES p.language "taken_confirmation" ∧
    (MESSAGES p.language "taken_confirmation").isSome = true := by
  have hcore : handle_conversation_full db phone "TAKEN" now =
      (⟨db.patients, db.medications, db.adherences ++
          [{ patient_phone := phone,
             medication := ((db.medications.find? fun m => m.patient_phone == phone).map
               fun m => m.name).getD "",
             scheduled_time := now, taken := true, responded_at := some now }]⟩,
       MESSAGES p.language "taken_confirmation") := by
    rw [handle_full_existing db phone "TAKEN" now p hfind]
    unfold handle_existing
    rw [hstate]
    rfl
  refine ⟨⟨_, by rw [hcore], rfl, rfl, rfl⟩, by rw [hcore], ?_⟩
  rcases hlang with h | h <;> rw [h] <;> rfl

/-- C2 witness: a concrete active patient replying `TAKEN` gets a recorded
dose and the English confirmation. -/
theorem C2_witness :
    (∃ rec1 : Adherence,
      (handle_conversation_full
        ⟨[{ phone := "t", conversation_state := "active" }], [], []⟩ "t" "TAKEN" 77).1.adherences =
        [] ++ [rec1] ∧
      rec1.taken = true ∧ rec1.responded_at = some 77 ∧ rec1.patient_phone = "t") ∧
    (handle_conversation_full
      ⟨[{ phone := "t", conversation_state := "active" }], [], []⟩ "t" "TAKEN" 77).2 =
      MESSAGES "english" "taken_confirmation" ∧
    (MESSAGES "english" "taken_confirmation").isSome = true := by
  exact C2_taken_logs_adherence ⟨[{ phone := "t", conversation_state := "active" }], [], []⟩
    "t" 77 { phone := "t", conversation_state := "active" } (by decide) rfl (Or.inl rfl)

theorem times_cond_iff (m : Medication) (t : String) :
    (!m.times.isEmpty && m.times.contains t) = true ↔ (m.times ≠ [] ∧ t ∈ m.times) := by
  rw [Bool.and_eq_true, Bool.not_eq_true']
  constructor
  · rintro ⟨h1, h2⟩
    exact ⟨fun hnil => by simp [hnil] at h1, List.elem_iff.mp h2⟩
  · rintro ⟨h1, h2⟩
    refine ⟨?_, List.elem_iff.mpr h2⟩
    cases hts : m.times.isEmpty with
    | false => rfl
    | true => exact absurd (List.isEmpty_iff.mp hts) h1

theorem reminder_template_exists (db : DB)
    (hlang : ∀ p ∈ db.patients, p.language = "english" ∨ p.language = "zulu")
    (phone : String) (p : Patient) (h : findPatient db phone = some p) :
    (MESSAGES p.language "reminder").isSome = true := by
  have hmem : p ∈ db.patients := List.mem_of_find?_eq_some h
  rcases hlang p hmem with hl | hl <;> rw [hl] <;> rfl

theorem medSend_none_inactive (db : DB) (t : String) (m : Medication)
    (hm : m.active = false) : medSend db t m = none := by
  unfold medSend
  rw [if_neg]
  rintro ⟨h1, _, _⟩
  rw [hm] at h1
  cases h1

theorem scanMeds_eq (db : DB) (t : String)
    (hlang : ∀ p ∈ db.patients, p.language = "english" ∨ p.language = "zulu") :
    ∀ l : List Medication, (∀ m ∈ l, m.active = true) →
      scanMeds db t l = (l.filterMap (medSend db t), true) := by
  intro l
  induction l with
  | nil => intro _; rfl
  | cons m rest ih =>
    intro hact
    have hma : m.active = true := hact m (List.mem_cons_self m rest)
    have hrest : ∀ m2 ∈ rest, m2.active = true := fun m2 hm2 =>
      hact m2 (List.mem_cons_of_mem m hm2)
    by_cases hc : (!m.times.isEmpty && m.times.contains t) = true
    · rcases hp : findPatient db m.patient_phone with _ | p
      · have hnone : medSend db t m = none := by
          unfold medSend
          rw [if_pos ⟨hma, ((times_cond_iff m t).mp hc).1, ((times_cond_iff m t).mp hc).2⟩, hp]
          rfl
        simp [scanMeds, hc, hp, ih hrest, List.filterMap_cons, hnone]
      · have htpl := reminder_template_exists db hlang m.patient_phone p hp
        rcases htl : MESSAGES p.language "reminder" with _ | tpl
        · rw [htl] at htpl
          simp at htpl
        · have hsome : medSend db t m =
              some (p.phone, pyFormatMedDos tpl m.name m.dosage) := by
            unfold medSend
            rw [if_pos ⟨hma, ((times_cond_iff m t).mp hc).1, ((times_cond_iff m t).mp hc).2⟩,
              hp]
            simp [htl]
          simp [scanMeds, hc, hp, htl, ih hrest, List.filterMap_cons, hsome]
          exact ⟨((times_cond_iff m t).mp hc).1, ((times_cond_iff m t).mp hc).2⟩
    · have hnone : medSend db t m = none := by
        unfold medSend
        rw [if_neg]
        rintro ⟨_, h2, h3⟩
        exact hc ((times_cond_iff m t).mpr ⟨h2, h3⟩)
      simp [scanMeds, hc, ih hrest, List.filterMap_cons, hnone]
      intro h2 h3
      exact absurd ((times_cond_iff m t).mpr ⟨h2, h3⟩) hc

theorem filterMap_filter_of_none {α β : Type} (p : α → Bool) (f : α → Option β)
    (hf : ∀ a, p a = false → f a = none) (l : List α) :
    (l.filter p).filterMap f = l.filterMap f := by
  induction l with
  | nil => rfl
  | cons a t ih =>
    rw [List.filter_cons]
    cases hp : p a with
    | true =>
      rw [if_pos (by simp [hp]), List.filterMap_cons, List.filterMap_cons, ih]
    | false =>
      rw [if_neg (by simp [hp]), List.filterMap_cons, hf a hp, ih]

/-- C3: in one iteration of the reminder worker, the scan completes after
visiting every active medication, the emitted sends are exactly the
per-medication sends in store order, and a send exists for a medication
`m` if and only if `m.active` is true, `m.times` is non-empty and contains
the current "HH:MM" string, and a patient row with `m.patient_phone`
exists.  The hypothesis restricts patient languages to the two the system
enrolls; the once-per-minute cadence is the `time.sleep(60)` on both paths
of the loop body, represented here by one scan per iteration (see
`reminder_worker_run`). -/
theorem C3_reminder_scan_iff (db : DB) (t : String)
    (hlang : ∀ p ∈ db.patients, p.language = "english" ∨ p.language = "zulu") :
    (reminder_scan db t).2 = true ∧
    (reminder_scan db t).1 = db.medications.filterMap (medSend db t) ∧
    (∀ m ∈ db.medications, ((medSend db t m).isSome = true ↔
      (m.active = true ∧ m.times ≠ [] ∧ t ∈ m.times ∧
        (findPatient db m.patient_phone).isSome = true))) := by
  have hscan := scanMeds_eq db t hlang (db.medications.filter fun m => m.active)
    (fun m hm => (List.mem_filter.mp hm).2)
  refine ⟨?_, ?_, ?_⟩
  · show (scanMeds db t (db.medications.filter fun m => m.active)).2 = true
    rw [hscan]
  · show (scanMeds db t (db.medications.filter fun m => m.active)).1 =
      db.medications.filterMap (medSend db t)
    rw [hscan]
    exact filterMap_filter_of_none (fun m => m.active) (medSend db t)
      (fun m hm => medSend_none_inactive db t m hm) db.medications
  · intro m _
    constructor
    · intro hsome
      by_cases hcond : (m.active = true ∧ m.times ≠ [] ∧ t ∈ m.times)
      · rcases hcond with ⟨h1, h2, h3⟩
        refine ⟨h1, h2, h3, ?_⟩
        unfold medSend at hsome
        rw [if_pos ⟨h1, h2, h3⟩] at hsome
        rcases hp : findPatient db m.patient_phone with _ | p
        · rw [hp] at hsome
          simp at hsome
        · rfl
      · unfold medSend at hsome
        rw [if_neg hcond] at hsome
        simp at hsome
    · rintro ⟨h1, h2, h3, h4⟩
      unfold medSend
      rw [if_pos ⟨h1, h2, h3⟩]
      rcases hp : findPatient db m.patient_phone with _ | p
      · rw [hp] at h4
        simp at h4
      · have htpl := reminder_template_exists db hlang m.patient_phone p hp
        rcases htl : MESSAGES p.language "reminder" with _ | tpl
        · rw [htl] at htpl
          simp at htpl
        · simp [hp, htl]

/-- C3 witness: a store with one English patient, one matching active
medication, one active medication with a non-matching slot and one
inactive medication fires exactly the matching reminder. -/
theorem C3_witness :
    (reminder_scan ⟨[{ phone := "p", conversation_state := "active" }],
        [{ patient_phone := "p", name := "Aspirin", dosage := "10mg", times := ["08:00"] },
         { patient_phone := "p", name := "Insulin", dosage := "5u", times := ["21:00"] },
         { patient_phone := "p", name := "Old", dosage := "1mg", times := ["08:00"],
           active := false }], []⟩ "08:00").2 = true ∧
    (reminder_scan ⟨[{ phone := "p", conversation_state := "active" }],
        [{ patient_phone := "p", name := "Aspirin", dosage := "10mg", times := ["08:00"] },
         { patient_phone := "p", name := "Insulin", dosage := "5u", times := ["21:00"] },
         { patient_phone := "p", name := "Old", dosage := "1mg", times := ["08:00"],
           active := false }], []⟩ "08:00").1 =
      [("p", "💊 Time for your Aspirin (10mg)")] := by
  have h := C3_reminder_scan_iff ⟨[{ phone := "p", conversation_state := "active" }],
    [{ patient_phone := "p", name := "Aspirin", dosage := "10mg", times := ["08:00"] },
     { patient_phone := "p", name := "Insulin", dosage := "5u", times := ["21:00"] },
     { patient_phone := "p", name := "Old", dosage := "1mg", times := ["08:00"],
       active := false }], []⟩ "08:00" (by decide)
  refine ⟨h.1, ?_⟩
  rw [h.2.1]
  decide

theorem updatePatients_map_phone (phone : String) (f : Patient → Patient)
    (hf : ∀ q, (f q).phone = q.phone) (l : List Patient) :
    (updatePatients phone f l).map (fun p => p.phone) = l.map fun p => p.phone := by
  induction l with
  | nil => rfl
  | cons a t ih =>
    unfold updatePatients
    by_cases ha : (a.phone == phone) = true
    · rw [if_pos ha]
      simp [hf a]
    · rw [if_neg ha]
      simp [ih]

theorem phonesUnique_append_fresh (db : DB) (p : Patient)
    (hu : phonesUnique db) (hfresh : findPatient db p.phone = none) :
    ((db.patients ++ [p]).map fun q => q.phone).Nodup := by
  have hnotin : ∀ q ∈ db.patients, q.phone ≠ p.phone := by
    intro q hq heq
    have hfalse := List.find?_eq_none.mp hfresh q hq
    rw [heq] at hfalse
    simp at hfalse
  rw [List.map_append]
  rw [List.nodup_append]
  refine ⟨hu, by simp, ?_⟩
  intro x hx hx2
  simp only [List.map_cons, List.map_nil, List.mem_singleton] at hx2
  rcases List.mem_map.mp hx with ⟨q, hq, hqx⟩
  exact hnotin q hq (hqx.trans hx2)

theorem phonesUnique_update (db : DB) (phone : String) (f : Patient → Patient)
    (hf : ∀ q, (f q).phone = q.phone) (hu : phonesUnique db)
    (meds : List Medication) (adhs : List Adherence) :
    phonesUnique ⟨updatePatients phone f db.patients, meds, adhs⟩ := by
  show ((updatePatients phone f db.patients).map fun p => p.phone).Nodup
  rw [updatePatients_map_phone phone f hf db.patients]
  exact hu

theorem phonesUnique_handle_conversation (db : DB) (phone msg : String)
    (hu : phonesUnique db) : phonesUnique (handle_conversation db phone msg).1 := by
  unfold handle_conversation
  rcases hp : findPatient db phone with _ | p
  · show ((db.patients ++
      [({ phone := phone, conversation_state := "language_selection" } : Patient)]).map
        fun q => q.phone).Nodup
    exact phonesUnique_append_fresh db _ hu hp
  · exact hu

theorem phonesUnique_handle_existing (db : DB) (p : Patient) (phone msg : String) (now : Nat)
    (hu : phonesUnique db) : phonesUnique (handle_existing db p phone msg now).1 := by
  unfold handle_existing
  split
  · split
    · rename_i lang heq
      exact phonesUnique_update db phone
        (fun q => { q with language := lang, conversation_state := "medication_name" })
        (fun q => rfl) hu _ _
    · exact hu
  · exact phonesUnique_update db phone
      (fun q => { q with conversation_state := "dosage", conversation_data := msg })
      (fun q => rfl) hu _ _
  · exact phonesUnique_update db phone
      (fun q => { q with conversation_state := "schedule",
                         conversation_data := q.conversation_data ++ "|" ++ msg })
      (fun q => rfl) hu _ _
  · exact phonesUnique_update db phone
      (fun q => { q with conversation_state := "active" })
      (fun q => rfl) hu _ _
  · split
    · exact hu
    · exact hu

theorem phonesUnique_handle_full (db : DB) (phone msg : String) (now : Nat)
    (hu : phonesUnique db) : phonesUnique (handle_conversation_full db phone msg now).1 := by
  unfold handle_conversation_full
  rcases hp : findPatient db phone with _ | p
  · show ((db.patients ++
      [({ phone := phone, conversation_state := "language_selection" } : Patient)]).map
        fun q => q.phone).Nodup
    exact phonesUnique_append_fresh db _ hu hp
  · exact phonesUnique_handle_existing db p phone msg now hu

theorem phonesUnique_add_patient (db : DB) (phone name lang med dos times : String)
    (hu : phonesUnique db) : phonesUnique (add_patient db phone name lang med dos times).1 := by
  unfold add_patient
  by_cases hex : ((findPatient db phone).isSome = true)
  · rw [if_pos hex]
    exact hu
  · rw [if_neg hex]
    have hfresh : findPatient db phone = none := by
      cases hq : findPatient db phone with
      | none => rfl
      | some q => rw [hq] at hex; simp at hex
    rcases hm : MESSAGES lang "confirmation" with _ | c
    · simp only [hm]
      show ((db.patients ++
        [({ phone := phone, name := name, language := lang, clinic_id := "demo",
            conversation_state := "active" } : Patient)]).map fun q => q.phone).Nodup
      exact phonesUnique_append_fresh db _ hu hfresh
    · simp only [hm]
      show ((db.patients ++
        [({ phone := phone, name := name, language := lang, clinic_id := "demo",
            conversation_state := "active" } : Patient)]).map fun q => q.phone).Nodup
      exact phonesUnique_append_fresh db _ hu hfresh

/-- C7: no two patient rows ever share a phone number — `phone` is declared
a unique key, and every patient-creating operation (`handle_conversation`
for an unknown sender, the modelled full conversation step, and the POST
branch of `/add_patient`, whose commit the unique key aborts on a
duplicate) preserves the uniqueness invariant over all stores reachable
from the empty database. -/
theorem C7_phone_uniqueness (db : DB) (h : Reachable db) : phonesUnique db := by
  induction h with
  | init => simp [phonesUnique]
  | conv db phone msg hr ih => exact phonesUnique_handle_conversation db phone msg ih
  | conv_full db phone msg now hr ih => exact phonesUnique_handle_full db phone msg now ih
  | add db phone name lang med dos times hr ih =>
    exact phonesUnique_add_patient db phone name lang med dos times ih

/-- C7 witness: a concrete reachable store — one patient enrolled through
the webhook conversation and one added by staff — has pairwise distinct
phone numbers. -/
theorem C7_witness :
    phonesUnique (add_patient (handle_conversation ⟨[], [], []⟩ "+271" "hi").1
      "+272" "Bea" "english" "Aspirin" "10mg" "08:00").1 :=
  C7_phone_uniqueness _
    (Reachable.add (handle_conversation ⟨[], [], []⟩ "+271" "hi").1
      "+272" "Bea" "english" "Aspirin" "10mg" "08:00"
      (Reachable.conv ⟨[], [], []⟩ "+271" "hi" Reachable.init))

end MediRemind
